import Mathlib

/-
Verification of the IOTA DIALS processing module
(iota/components/iota_dials.py): a shallow embedding of the pipeline
orchestration, symmetry-resolution, reindexing and result-filtering
logic, with theorems about the behaviour of each piece.

Real-valued quantities (cell parameters, resolutions, metric values)
are modelled as rationals; Python dictionaries holding fixed keys are
modelled as structures with optional fields; exceptions are modelled
as `Except` values; the external DIALS engines (spot finder, indexer,
refiner, integrator, Bravais-candidate generator) are opaque
collaborators whose outcomes are inputs to the embedded functions.
-/

/-- Python 2 rendering of an optional exception in a format string:
`None` prints as the string "None", an exception prints its message. -/
def pyStr : Option String → String
  | none => "None"
  | some s => s

/-- Whether the first character list is an initial segment of the
second. -/
def startsWithChars : List Char → List Char → Bool
  | [], _ => true
  | _ :: _, [] => false
  | c :: cs, d :: ds => c == d && startsWithChars cs ds

/-- Whether the first character list occurs contiguously inside the
second. -/
def hasSubChars (needle : List Char) : List Char → Bool
  | [] => startsWithChars needle []
  | d :: ds => startsWithChars needle (d :: ds) || hasSubChars needle ds

/-- Substring containment, modelling the Python expression
`needle in hay`. -/
def strContains (hay needle : String) : Bool :=
  hasSubChars needle.toList hay.toList

/-- A unit cell: the six parameters a, b, c, alpha, beta, gamma
(source: `obs.unit_cell().parameters()`). -/
structure UnitCell where
  a : ℚ
  b : ℚ
  c : ℚ
  alpha : ℚ
  beta : ℚ
  gamma : ℚ
deriving DecidableEq, Repr

/-- The observation block of an integrated frame
(`frame["observations"][0]`): unit cell, resolution range
(`d_max_min()`), and the intensity/sigma data columns. -/
structure Obs where
  unit_cell : UnitCell
  d_max : ℚ
  d_min : ℚ
  data : List (ℚ × ℚ)
deriving DecidableEq

/-- An integrated frame as consumed by the orchestrator and the
selector: the keys of the frame dictionary that the source reads.
The three estimate fields model `frame.get(key, [0])[0]` lookups, so
they are optional with default 0. -/
structure Frame where
  observations : Obs
  pointgroup : String
  wavelength : ℚ
  distance : ℚ
  xbeam : ℚ
  ybeam : ℚ
  ml_half_mosaicity_deg : Option ℚ
  ml_domain_size_ang : Option ℚ
  ewald_proximal_volume : Option ℚ
deriving DecidableEq

/-- The `Selector` object state after `__init__`: the observed values
extracted from the frame plus the configured acceptance criteria
(`uc_tol=0, pg=None, uc=None, min_ref=0, min_res=None` are the
unconfigured defaults in the source). -/
structure Selector where
  obs_pg : String
  obs_uc : UnitCell
  obs_res : ℚ
  obs_ref : ℕ
  uc : Option UnitCell
  uc_tol : ℚ
  pg : Option String
  min_ref : ℕ
  min_res : Option ℚ
deriving DecidableEq

/-- `Selector.__init__`: extract `obs_pg`, `obs_uc`, `obs_res`
(= `d_max_min()[1]`) and `obs_ref` (= `len(obs.data())`) from the
frame and store the criteria. -/
def Selector.from_frame (frame : Frame) (uc_tol : ℚ) (pg : Option String)
    (uc : Option UnitCell) (min_ref : ℕ) (min_res : Option ℚ) : Selector :=
  { obs_pg := frame.pointgroup
    obs_uc := frame.observations.unit_cell
    obs_res := frame.observations.d_min
    obs_ref := frame.observations.data.length
    uc := uc
    uc_tol := uc_tol
    pg := pg
    min_ref := min_ref
    min_res := min_res }

/-- The `uc_check` boolean computed inside `Selector.result_filter`:
with a target cell, all six absolute parameter differences must be at
most target-parameter times the tolerance; with no target the check
is `True`. -/
def Selector.uc_check (s : Selector) : Bool :=
  match s.uc with
  | some user_uc =>
    let delta_a := |s.obs_uc.a - user_uc.a|
    let delta_b := |s.obs_uc.b - user_uc.b|
    let delta_c := |s.obs_uc.c - user_uc.c|
    let delta_alpha := |s.obs_uc.alpha - user_uc.alpha|
    let delta_beta := |s.obs_uc.beta - user_uc.beta|
    let delta_gamma := |s.obs_uc.gamma - user_uc.gamma|
    decide (delta_a ≤ user_uc.a * s.uc_tol)
      && decide (delta_b ≤ user_uc.b * s.uc_tol)
      && decide (delta_c ≤ user_uc.c * s.uc_tol)
      && decide (delta_alpha ≤ user_uc.alpha * s.uc_tol)
      && decide (delta_beta ≤ user_uc.beta * s.uc_tol)
      && decide (delta_gamma ≤ user_uc.gamma * s.uc_tol)
  | none => true

/-- `Selector.result_filter`: the disjunction `i_fail` of the four
rejection criteria; a failing criterion yields `"failed filter"`,
otherwise `None`. -/
def Selector.result_filter (s : Selector) : Option String :=
  let uc_check := s.uc_check
  let i_fail :=
    decide (s.obs_ref ≤ s.min_ref)
      || (match s.min_res with
          | some mr => decide (s.obs_res ≥ mr)
          | none => false)
      || (match s.pg with
          | some p => p.replace " " "" != s.obs_pg.replace " " ""
          | none => false)
      || !uc_check
  if i_fail then some "failed filter" else none

/-- A crystal model attached to an experiment (space group plus unit
cell); `experiment.crystal.update(other)` replaces it wholly. -/
structure Crystal where
  space_group : String
  cell : UnitCell
deriving DecidableEq, Repr

instance : Inhabited UnitCell := ⟨⟨0, 0, 0, 0, 0, 0⟩⟩

instance : Inhabited Crystal := ⟨⟨"", default⟩⟩

/-- A change-of-basis operation on Miller indices, as derived from
`solution["cb_op_inp_best"]`: a rational 3x3 matrix applied to
(h, k, l). -/
structure ChangeOfBasisOp where
  r11 : ℚ
  r12 : ℚ
  r13 : ℚ
  r21 : ℚ
  r22 : ℚ
  r23 : ℚ
  r31 : ℚ
  r32 : ℚ
  r33 : ℚ
deriving DecidableEq, Repr

/-- A candidate Bravais setting produced by the candidate-generation
engine: lattice family symbol, the engine's recommended flag, the
max-angular-difference metric, the basis transform and the refined
crystal model. -/
structure BravaisSolution where
  bravais : String
  recommended : Bool
  max_angular_difference : ℚ
  cb_op_inp_best : ChangeOfBasisOp
  refined_crystal : Crystal
deriving DecidableEq, Repr

/-- The fixed 14-entry lattice-family to space-group-number table from
`IOTADialsProcessor.refine_bravais_settings`, in source order. -/
def lattice_to_sg_number : List (String × ℕ) :=
  [("aP", 1), ("mP", 3), ("mC", 5), ("oP", 16), ("oC", 20), ("oF", 22),
   ("oI", 23), ("tP", 75), ("tI", 79), ("hP", 143), ("hR", 146),
   ("cP", 195), ("cF", 196), ("cI", 197)]

/-- The space-group number mapped to a lattice-family symbol by the
fixed table, if any. -/
def sgNumber (fam : String) : Option ℕ :=
  (lattice_to_sg_number.find? (fun kv => kv.1 == fam)).map (·.2)

/-- `filtered_lattices`: the table entries whose family occurs among
the given candidate families. -/
def filtered_lattices (possible : List String) : List (String × ℕ) :=
  lattice_to_sg_number.filter (fun kv => possible.contains kv.1)

/-- Python's `max(d, key=d.get)` over an association list: the first
entry with the maximal value (earlier entries win ties, as in
Python's `max`). -/
def argmaxBySnd : List (String × ℕ) → Option (String × ℕ)
  | [] => none
  | kv :: rest =>
    match argmaxBySnd rest with
    | none => some kv
    | some best => if best.2 > kv.2 then some best else some kv

/-- `highest_sym_lattice = max(filtered_lattices, key=...)`.  Python
raises on an empty dictionary; that situation (a recommended family
outside the fixed table) is modelled as `none`. -/
def highest_sym_lattice (possible : List String) : Option String :=
  (argmaxBySnd (filtered_lattices possible)).map (·.1)

/-- Comparison key used by `sorted(..., key=lambda x: x["max_angular_difference"])`. -/
def madLe (x y : BravaisSolution) : Bool :=
  decide (x.max_angular_difference ≤ y.max_angular_difference)

/-- Stable insertion into a `madLe`-sorted list: an element goes in
front of the first element it is `madLe`-below-or-equal to. -/
def insertByMad (x : BravaisSolution) : List BravaisSolution → List BravaisSolution
  | [] => [x]
  | y :: ys => if madLe x y then x :: y :: ys else y :: insertByMad x ys

/-- Python's stable `sorted(..., key=lambda x: x["max_angular_difference"])`,
modelled as stable insertion sort (Timsort is stable; any stable sort
by the same key yields the same list). -/
def sortByMad : List BravaisSolution → List BravaisSolution
  | [] => []
  | x :: xs => insertByMad x (sortByMad xs)

/-- The candidate-selection logic of
`IOTADialsProcessor.refine_bravais_settings` after the generation
engine has returned a candidate list `Lfat`: filter to recommended
solutions, pick the family with the highest mapped space-group
number, collect all solutions of the full list with that family, and
break ties by the smallest max-angular-difference (stable sort, first
element). -/
def select_solution (Lfat : List BravaisSolution) : Option BravaisSolution :=
  let Lfat_recommended := Lfat.filter (·.recommended)
  if Lfat_recommended.length = 0 then none
  else
    let possible_bravais_settings := Lfat_recommended.map (·.bravais)
    match highest_sym_lattice possible_bravais_settings with
    | none => none
    | some hsl =>
      let highest_sym_solutions := Lfat.filter (fun s => s.bravais == hsl)
      if highest_sym_solutions.length > 1 then
        (sortByMad highest_sym_solutions).head?
      else
        highest_sym_solutions.head?

/-- Outcome of the external candidate-generation engine
(`refined_settings_factory_from_refined_triclinic`): it may succeed
with a candidate list, or raise; in both cases it may have mutated
the experiments' crystal models in place, so both constructors carry
the post-call crystal list. -/
inductive EngineOutcome where
  | ok : List Crystal → List BravaisSolution → EngineOutcome
  | raise : List Crystal → EngineOutcome
deriving DecidableEq

/-- `IOTADialsProcessor.refine_bravais_settings`: deep-copy the first
experiment's crystal, run the generation engine; on an exception
reset every experiment's crystal to the copy and return `None`;
otherwise select the highest-symmetry recommended solution.  Returns
the post-call experiment crystals and the selected solution. -/
def refine_bravais_settings (experiments : List Crystal)
    (engine_outcome : EngineOutcome) : List Crystal × Option BravaisSolution :=
  let crystal_P1 := experiments.head?.getD default
  match engine_outcome with
  | .raise mutated => (mutated.map (fun _ => crystal_P1), none)
  | .ok mutated Lfat => (mutated, select_solution Lfat)

/-- A Miller index (h, k, l) with integer components. -/
abbrev MillerIndex := ℤ × ℤ × ℤ

/-- Application of a change-of-basis operation to a Miller index,
producing rational components. -/
def ChangeOfBasisOp.applyQ (op : ChangeOfBasisOp) (h : MillerIndex) : ℚ × ℚ × ℚ :=
  (op.r11 * h.1 + op.r12 * h.2.1 + op.r13 * h.2.2,
   op.r21 * h.1 + op.r22 * h.2.1 + op.r23 * h.2.2,
   op.r31 * h.1 + op.r32 * h.2.1 + op.r33 * h.2.2)

/-- Whether a transformed index has all-integral components. -/
def isIntegralQ (q : ℚ × ℚ × ℚ) : Bool :=
  q.1.den == 1 && q.2.1.den == 1 && q.2.2.den == 1

/-- Cast an all-integral transformed index back to a Miller index. -/
def toMillerIndex (q : ℚ × ℚ × ℚ) : MillerIndex :=
  (q.1.num, q.2.1.num, q.2.2.num)

/-- `change_of_basis_op.apply_results_in_non_integral_indices`: the
positions in the Miller-index column whose transform is
non-integral. -/
def nonIntegralPositions (op : ChangeOfBasisOp) (miller : List MillerIndex) : List ℕ :=
  (List.range miller.length).filter
    (fun i => !isIntegralQ (op.applyQ (miller.getD i (0, 0, 0))))

/-- flex `set_selected` with a position array: set the listed
positions of a boolean column to a value. -/
def setSelectedPositions (l : List Bool) (pos : List ℕ) (v : Bool) : List Bool :=
  l.mapIdx (fun i x => if pos.contains i then v else x)

/-- flex `select` with a boolean mask: keep the entries at mask-true
positions, in order. -/
def flexSelect {α : Type} : List Bool → List α → List α
  | true :: ms, x :: xs => x :: flexSelect ms xs
  | false :: ms, _ :: xs => flexSelect ms xs
  | _, _ => []

/-- flex `set_selected` with a boolean mask and a value array: the
k-th mask-true position receives the k-th value (flex requires the
value array to have exactly as many entries as the mask has trues;
shorter value arrays leave the remaining entries unchanged here). -/
def setSelectedVals {α : Type} : List α → List Bool → List α → List α
  | [], _, _ => []
  | _ :: xs, true :: ms, v :: vs => v :: setSelectedVals xs ms vs
  | x :: xs, true :: ms, [] => x :: setSelectedVals xs ms []
  | x :: xs, false :: ms, vs => x :: setSelectedVals xs ms vs
  | x :: xs, [], vs => x :: setSelectedVals xs [] vs

/-- flex `set_selected` with a boolean mask and a single broadcast
value. -/
def setSelectedConst {α : Type} : List α → List Bool → α → List α
  | [], _, _ => []
  | _ :: xs, true :: ms, v => v :: setSelectedConst xs ms v
  | x :: xs, false :: ms, v => x :: setSelectedConst xs ms v
  | x :: xs, [], _ => x :: xs

/-- The `~sel` mask. -/
def notMask (l : List Bool) : List Bool := l.map (!·)

/-- The boolean selection column built by `IOTADialsProcessor.reindex`:
all-true, then the non-integral positions set to `False`. -/
def reindexSel (op : ChangeOfBasisOp) (miller : List MillerIndex) : List Bool :=
  setSelectedPositions (List.replicate miller.length true)
    (nonIntegralPositions op miller) false

/-- `IOTADialsProcessor.reindex`: replace the first experiment's
crystal with the solution's refined crystal, apply the solution's
change of basis to the reflections' Miller indices, drop (zero out)
the reflections whose transformed index is non-integral, and return
the updated experiments and reflections. -/
def reindex (experiments : List Crystal) (miller : List MillerIndex)
    (solution : BravaisSolution) : List Crystal × List MillerIndex :=
  let experiments :=
    match experiments with
    | [] => []
    | _ :: rest => solution.refined_crystal :: rest
  let op := solution.cb_op_inp_best
  let sel := reindexSel op miller
  let miller_indices_reindexed :=
    (flexSelect sel miller).map (fun h => toMillerIndex (op.applyQ h))
  let out := setSelectedVals miller sel miller_indices_reindexed
  let out := setSelectedConst out (notMask sel) ((0 : ℤ), (0 : ℤ), (0 : ℤ))
  (experiments, out)

/-- Python 2 `round(q, 6)`: round half away from zero at the sixth
decimal place. -/
def pyRound6 (q : ℚ) : ℚ :=
  (if q ≥ 0 then (⌊q * 1000000 + 1 / 2⌋ : ℚ) else -(⌊-q * 1000000 + 1 / 2⌋ : ℚ)) / 1000000

/-- Rendering of a rational in status strings (the source formats
floating-point numbers with fixed widths; the exact float formatting
is outside this model). -/
def ratStr (q : ℚ) : String :=
  toString q.num ++ "/" ++ toString q.den

/-- The number of spots with intensity/sigma at or above the
configured minimum (`strong_spots` in `Integrator.run`). -/
def strong_spot_count (data : List (ℚ × ℚ)) (min_sigma : ℚ) : ℕ :=
  (data.filter (fun p => decide (p.1 / p.2 ≥ min_sigma))).length

/-- The `int_status` line assembled on pipeline success. -/
def success_int_status (hres : ℚ) (strong_spots : ℕ) (sg : String)
    (cell : UnitCell) : String :=
  "RES: " ++ ratStr hres ++ "  NSREF: " ++ toString strong_spots
    ++ "  SG: " ++ sg ++ "  CELL: " ++ ratStr cell.a ++ ", " ++ ratStr cell.b
    ++ ", " ++ ratStr cell.c ++ ", " ++ ratStr cell.alpha ++ ", "
    ++ ratStr cell.beta ++ ", " ++ ratStr cell.gamma

/-- The `int_status` line assembled in the pipeline failure branch;
it interpolates the variable `e` holding the last caught exception
(`None` when nothing was caught). -/
def failure_int_status (e : Option String) : String :=
  "not integrated -- " ++ pyStr e

/-- The `step_id` chosen in the failure branch by substring matching
on the failure status.  A status matching none of the four substrings
would leave `step_id` unbound in Python (a `NameError`); that
unreachable situation is modelled by the empty string. -/
def stepId (fail : String) : String :=
  if strContains fail "spotfinding" then "SPOTFINDING"
  else if strContains fail "indexing" then "INDEXING"
  else if strContains fail "integration" then "INTEGRATION"
  else if strContains fail "filter" then "FILTER"
  else ""

/-- The caller-owned result accumulator (`self.final`): the keys the
orchestrator may populate, each absent (`none`) until written. -/
structure FinalRec where
  final : Option String
  sg : Option String
  a : Option ℚ
  b : Option ℚ
  c : Option ℚ
  alpha : Option ℚ
  beta : Option ℚ
  gamma : Option ℚ
  wavelength : Option ℚ
  distance : Option ℚ
  beamX : Option ℚ
  beamY : Option ℚ
  strong : Option ℕ
  res : Option ℚ
  lres : Option ℚ
  mos : Option ℚ
  epv : Option ℚ
  info : Option String
  ok : Option Bool
deriving DecidableEq

/-- An accumulator with no fields populated. -/
def FinalRec.empty : FinalRec :=
  { final := none, sg := none, a := none, b := none, c := none,
    alpha := none, beta := none, gamma := none, wavelength := none,
    distance := none, beamX := none, beamY := none, strong := none,
    res := none, lres := none, mos := none, epv := none, info := none,
    ok := none }

/-- The configuration the orchestrator consults during a run:
the image basename, the conditions guarding the symmetry stage and
the filter stage, the filter criteria, and the strong-spot
signal-to-noise minimum. -/
structure RunCfg where
  img : String
  known_space_group : Option String
  determine_sg_and_reindex : Bool
  filter_flag_on : Bool
  target_uc_tolerance : ℚ
  target_pointgroup : Option String
  target_unit_cell : Option UnitCell
  min_reflections : ℕ
  min_resolution : Option ℚ
  min_sigma : ℚ
deriving DecidableEq

deriving instance DecidableEq for Except

/-- Outcomes of the five external engine invocations a run can make:
each either returns its value or raises with a message. -/
structure Engines where
  find_spots : Except String ℕ
  index : Except String ℕ
  symmetry : Except String String
  refine : Except String Unit
  integrate : Except String Frame
deriving DecidableEq

/-- What `Integrator.run` returns (with the stage-invocation trace
added so that short-circuiting is observable in the model). -/
structure RunResult where
  fail : Option String
  final : FinalRec
  log_entry : String
  invoked : List String
deriving DecidableEq

/-- The part of `Integrator.__init__` touching the result
accumulator: `self.final["final"] = final_filename`. -/
def init_final (final0 : FinalRec) (final_filename : String) : FinalRec :=
  { final0 with final := some final_filename }

/-- `Integrator.run`: the stage-sequencing state machine.  Spotfinding
always runs; indexing runs only while no failure is recorded; the
symmetry stage runs only with no failure, no configured target space
group, and automatic determination enabled, and its exceptions are
swallowed; refinement and integration form one try-unit; the filter
stage runs only with no failure and filtering enabled.  The variable
`e` carries the last caught exception across the run and is
interpolated into the failure log line and the (discarded)
`int_status` of the failure branch. -/
def run (cfg : RunCfg) (eng : Engines) (final0 : FinalRec) : RunResult :=
  let e : Option String := none
  let fail : Option String := none
  let invoked : List String := ["find_spots"]
  let state1 : Option String × Option String :=
    match eng.find_spots with
    | .ok _ => (fail, e)
    | .error msg => (some "failed spotfinding", some msg)
  let fail := state1.1
  let e := state1.2
  let state2 : Option String × Option String × List String :=
    if fail = none then
      match eng.index with
      | .ok _ => (fail, e, invoked ++ ["index"])
      | .error msg => (some "failed indexing", some msg, invoked ++ ["index"])
    else (fail, e, invoked)
  let fail := state2.1
  let e := state2.2.1
  let invoked := state2.2.2
  let state3 : Option String × List String :=
    if fail = none ∧ cfg.known_space_group = none ∧ cfg.determine_sg_and_reindex = true then
      match eng.symmetry with
      | .ok _ => (e, invoked ++ ["refine_bravais_settings_and_reindex"])
      | .error msg => (some msg, invoked ++ ["refine_bravais_settings_and_reindex"])
    else (e, invoked)
  let e := state3.1
  let invoked := state3.2
  let state4 : Option String × Option String × Option Frame × List String :=
    if fail = none then
      match eng.refine with
      | .error msg => (some "failed integration", some msg, none, invoked ++ ["refine"])
      | .ok _ =>
        match eng.integrate with
        | .ok f => (fail, e, some f, invoked ++ ["refine", "integrate"])
        | .error msg =>
          (some "failed integration", some msg, none, invoked ++ ["refine", "integrate"])
    else (fail, e, none, invoked)
  let fail := state4.1
  let e := state4.2.1
  let frame := state4.2.2.1
  let invoked := state4.2.2.2
  let state5 : Option String × List String :=
    if fail = none ∧ cfg.filter_flag_on = true then
      match frame with
      | some f =>
        let selector := Selector.from_frame f cfg.target_uc_tolerance
          cfg.target_pointgroup cfg.target_unit_cell cfg.min_reflections
          cfg.min_resolution
        (selector.result_filter, invoked ++ ["filter"])
      | none => (fail, invoked)
    else (fail, invoked)
  let fail := state5.1
  let invoked := state5.2
  if fail = none then
    match frame with
    | some f =>
      let obs := f.observations
      let cell := obs.unit_cell
      let hres := obs.d_min
      let lres := obs.d_max
      let strong_spots := strong_spot_count obs.data cfg.min_sigma
      let mosaicity := pyRound6 (f.ml_half_mosaicity_deg.getD 0)
      let ewald_proximal_volume := f.ewald_proximal_volume.getD 0
      let int_status := success_int_status hres strong_spots f.pointgroup cell
      let final :=
        { final0 with
          sg := some f.pointgroup
          a := some cell.a
          b := some cell.b
          c := some cell.c
          alpha := some cell.alpha
          beta := some cell.beta
          gamma := some cell.gamma
          wavelength := some f.wavelength
          distance := some f.distance
          beamX := some f.xbeam
          beamY := some f.ybeam
          strong := some strong_spots
          res := some hres
          lres := some lres
          mos := some mosaicity
          epv := some ewald_proximal_volume
          info := some int_status
          ok := some true }
      { fail := fail
        final := final
        log_entry := String.intercalate "\n"
          ["\n", "DIALS integration:", cfg.img ++ "  " ++ " --->  " ++ int_status]
        invoked := invoked }
    | none =>
      { fail := fail, final := final0, log_entry := "\n", invoked := invoked }
  else
    let _int_status := failure_int_status e
    let final := { final0 with final := none }
    { fail := fail
      final := final
      log_entry := String.intercalate "\n"
        ["\n", "\n " ++ stepId (fail.getD "") ++ " FAILED - " ++ pyStr e]
      invoked := invoked }

/-! Concrete sample data used to exercise the definitions. -/

/-- A sample unit cell. -/
def sampleCell : UnitCell := ⟨10, 11, 12, 90, 91, 92⟩

/-- A sample observation block with `k` reflections. -/
def sampleObs (k : ℕ) : Obs :=
  { unit_cell := sampleCell, d_max := 50, d_min := 2,
    data := List.replicate k (100, 10) }

/-- A sample integrated frame with `k` reflections. -/
def sampleFrame (k : ℕ) : Frame :=
  { observations := sampleObs k, pointgroup := "P1", wavelength := 1,
    distance := 100, xbeam := 0, ybeam := 0,
    ml_half_mosaicity_deg := none, ml_domain_size_ang := none,
    ewald_proximal_volume := none }

/-- A sample triclinic crystal model. -/
def sampleCrystal : Crystal := ⟨"P1", sampleCell⟩

/-- The identity change-of-basis operation. -/
def idOp : ChangeOfBasisOp := ⟨1, 0, 0, 0, 1, 0, 0, 0, 1⟩

/-- A change-of-basis operation that halves the third index. -/
def halfOp : ChangeOfBasisOp := ⟨1, 0, 0, 0, 1, 0, 0, 0, 1/2⟩

/-- A recommended orthorhombic candidate with metric 2. -/
def solA : BravaisSolution :=
  { bravais := "oP", recommended := true, max_angular_difference := 2,
    cb_op_inp_best := idOp, refined_crystal := ⟨"P222", sampleCell⟩ }

/-- A not-recommended orthorhombic candidate with metric 1. -/
def solB : BravaisSolution :=
  { bravais := "oP", recommended := false, max_angular_difference := 1,
    cb_op_inp_best := idOp, refined_crystal := ⟨"P222", sampleCell⟩ }

/-- A recommended monoclinic candidate with metric 1/2. -/
def solC : BravaisSolution :=
  { bravais := "mP", recommended := true, max_angular_difference := 1/2,
    cb_op_inp_best := idOp, refined_crystal := ⟨"P2", sampleCell⟩ }

/-- A sample run configuration: automatic symmetry determination on,
filtering off. -/
def sampleCfg : RunCfg :=
  { img := "img_0001", known_space_group := none,
    determine_sg_and_reindex := true, filter_flag_on := false,
    target_uc_tolerance := 0, target_pointgroup := none,
    target_unit_cell := none, min_reflections := 0,
    min_resolution := none, min_sigma := 5 }

/-- A sample run configuration with filtering on and a reflection
minimum the sample frame cannot meet. -/
def filterCfg : RunCfg :=
  { img := "img_0002", known_space_group := none,
    determine_sg_and_reindex := true, filter_flag_on := true,
    target_uc_tolerance := 0, target_pointgroup := none,
    target_unit_cell := none, min_reflections := 1000,
    min_resolution := none, min_sigma := 5 }

/-- Engine outcomes for a fully successful run. -/
def engAllOk : Engines :=
  { find_spots := .ok 150, index := .ok 120, symmetry := .ok "P222",
    refine := .ok (), integrate := .ok (sampleFrame 40) }

/-! Theorems. -/

/-- Componentwise characterisation of unit-cell equality. -/
theorem UnitCell.eq_iff {u v : UnitCell} :
    u = v ↔ (u.a = v.a ∧ u.b = v.b ∧ u.c = v.c ∧ u.alpha = v.alpha ∧
      u.beta = v.beta ∧ u.gamma = v.gamma) := by
  cases u
  cases v
  simp

/-- C5: with a configured target unit cell, `uc_check` passes iff each
of the six absolute parameter differences is at most the target
parameter times the tolerance fraction; with no target the check
always passes; tolerance 0 requires an exact match. -/
theorem c5_unit_cell_check (s : Selector) :
    (∀ t, s.uc = some t →
      (s.uc_check = true ↔
        (|s.obs_uc.a - t.a| ≤ t.a * s.uc_tol ∧
         |s.obs_uc.b - t.b| ≤ t.b * s.uc_tol ∧
         |s.obs_uc.c - t.c| ≤ t.c * s.uc_tol ∧
         |s.obs_uc.alpha - t.alpha| ≤ t.alpha * s.uc_tol ∧
         |s.obs_uc.beta - t.beta| ≤ t.beta * s.uc_tol ∧
         |s.obs_uc.gamma - t.gamma| ≤ t.gamma * s.uc_tol))) ∧
    (s.uc = none → s.uc_check = true) ∧
    (∀ t, s.uc = some t → s.uc_tol = 0 →
      (s.uc_check = true ↔ s.obs_uc = t)) := by
  refine ⟨?_, ?_, ?_⟩
  · intro t ht
    simp [Selector.uc_check, ht, and_assoc]
  · intro h
    simp [Selector.uc_check, h]
  · intro t ht h0
    simp [Selector.uc_check, ht, h0, mul_zero, abs_nonpos_iff, sub_eq_zero,
      UnitCell.eq_iff, and_assoc]

/-- C5 witness: the spec scenario — target (78, 78, 37, 90, 90, 90),
tolerance 1/20, observed (79, 77.5, 37.2, 90, 90, 90) — passes the
unit-cell check. -/
theorem c5_unit_cell_check_witness :
    Selector.uc_check
      { obs_pg := "P222", obs_uc := ⟨79, 155/2, 186/5, 90, 90, 90⟩,
        obs_res := 2, obs_ref := 100, uc := some ⟨78, 78, 37, 90, 90, 90⟩,
        uc_tol := 1/20, pg := none, min_ref := 0, min_res := none } = true :=
  ((c5_unit_cell_check _).1 ⟨78, 78, 37, 90, 90, 90⟩ rfl).mpr (by norm_num [abs_le])

/-- C6: `result_filter` rejects when the observed reflection count
exactly equals the configured minimum (strict less-or-equal
semantics), and accepts at minimum + 1 when every other criterion
passes. -/
theorem c6_min_ref_boundary (s : Selector) :
    (s.obs_ref = s.min_ref → s.result_filter = some "failed filter") ∧
    (s.obs_ref = s.min_ref + 1 →
      (∀ mr, s.min_res = some mr → s.obs_res < mr) →
      (∀ p, s.pg = some p → p.replace " " "" = s.obs_pg.replace " " "") →
      s.uc_check = true →
      s.result_filter = none) := by
  constructor
  · intro h
    simp [Selector.result_filter, h]
  · intro h hres hpg huc
    have h1 : ¬ (s.obs_ref ≤ s.min_ref) := by omega
    rcases hmr : s.min_res with _ | mr
    · rcases hp : s.pg with _ | p
      · simp [Selector.result_filter, hmr, hp, h1, huc]
      · simp [Selector.result_filter, hmr, hp, h1, huc, hpg p hp]
    · have h2 : ¬ (s.obs_res ≥ mr) := not_le.mpr (hres mr hmr)
      rcases hp : s.pg with _ | p
      · simp [Selector.result_filter, hmr, hp, h1, h2, huc]
      · simp [Selector.result_filter, hmr, hp, h1, h2, huc, hpg p hp]

/-- C6 witness: with minimum 5, a count of exactly 5 is rejected and
a count of 6 (with no other criteria configured) is accepted. -/
theorem c6_min_ref_boundary_witness :
    Selector.result_filter
      { obs_pg := "P1", obs_uc := sampleCell, obs_res := 2, obs_ref := 5,
        uc := none, uc_tol := 0, pg := none, min_ref := 5,
        min_res := none } = some "failed filter" ∧
    Selector.result_filter
      { obs_pg := "P1", obs_uc := sampleCell, obs_res := 2, obs_ref := 6,
        uc := none, uc_tol := 0, pg := none, min_ref := 5,
        min_res := none } = none :=
  ⟨(c6_min_ref_boundary _).1 rfl,
   (c6_min_ref_boundary _).2 rfl (by intro mr h; cases h) (by intro p h; cases h) rfl⟩

/-- C7 counterexample: with no criteria configured (the source
defaults `uc=None, pg=None, min_ref=0, min_res=None`), a frame with
zero observed reflections is still rejected, because the reflection
count check compares with `<=` against the default minimum 0.  This
refutes the claim that an unconfigured selector accepts every
frame. -/
theorem c7_counterexample :
    (Selector.from_frame (sampleFrame 0) 0 none none 0 none).result_filter =
      some "failed filter" := by decide

/-- C7 (amended): a fully unconfigured selector accepts every frame
that contains at least one observed reflection; the only unconfigured
criterion that can reject is the reflection-count check at count 0. -/
theorem c7_amended_unconfigured_accepts (frame : Frame)
    (h : 1 ≤ frame.observations.data.length) :
    (Selector.from_frame frame 0 none none 0 none).result_filter = none := by
  have h1 : ¬ (frame.observations.data.length ≤ 0) := by omega
  simp [Selector.from_frame, Selector.result_filter, Selector.uc_check, h1]

/-- C7 witness: the unconfigured selector accepts a frame with 40
reflections. -/
theorem c7_amended_unconfigured_accepts_witness :
    (Selector.from_frame (sampleFrame 40) 0 none none 0 none).result_filter = none :=
  c7_amended_unconfigured_accepts (sampleFrame 40) (by decide)

/-- The first-maximal entry returned by `argmaxBySnd` is a member of
the list. -/
theorem argmaxBySnd_mem {l : List (String × ℕ)} {kv : String × ℕ}
    (h : argmaxBySnd l = some kv) : kv ∈ l := by
  induction l with
  | nil => simp [argmaxBySnd] at h
  | cons x xs ih =>
    rw [argmaxBySnd] at h
    rcases hrec : argmaxBySnd xs with _ | best <;> rw [hrec] at h <;> dsimp only at h
    · simp at h
      simp [h]
    · split_ifs at h with hb
      · simp at h
        exact List.mem_cons_of_mem _ (ih (h ▸ hrec))
      · simp at h
        simp [h]

/-- `argmaxBySnd` of a nonempty list is never `none`. -/
theorem argmaxBySnd_ne_none {l : List (String × ℕ)} (h : l ≠ []) :
    ∃ kv, argmaxBySnd l = some kv := by
  cases l with
  | nil => exact absurd rfl h
  | cons x xs =>
    rw [argmaxBySnd]
    rcases hrec : argmaxBySnd xs with _ | best <;> dsimp only
    · exact ⟨x, rfl⟩
    · by_cases hb : best.2 > x.2
      · exact ⟨best, by rw [if_pos hb]⟩
      · exact ⟨x, by rw [if_neg hb]⟩

/-- Every entry's value is at most the value of the entry returned by
`argmaxBySnd`. -/
theorem argmaxBySnd_le {l : List (String × ℕ)} :
    ∀ {kv : String × ℕ}, argmaxBySnd l = some kv → ∀ kv' ∈ l, kv'.2 ≤ kv.2 := by
  induction l with
  | nil =>
    intro kv h
    simp [argmaxBySnd] at h
  | cons x xs ih =>
    intro kv h
    rw [argmaxBySnd] at h
    rcases hrec : argmaxBySnd xs with _ | best <;> rw [hrec] at h <;> dsimp only at h
    · simp at h
      have hxs : xs = [] := by
        by_contra hne
        obtain ⟨kv2, hkv2⟩ := argmaxBySnd_ne_none hne
        rw [hkv2] at hrec
        cases hrec
      subst hxs
      intro kv2 hkv2
      simp at hkv2
      subst hkv2
      subst h
      omega
    · intro kv2 hkv2
      have hbound : ∀ kv' ∈ xs, kv'.2 ≤ best.2 := ih hrec
      rcases List.mem_cons.mp hkv2 with rfl | hmem
      · split_ifs at h with hb
        · simp at h
          subst h
          omega
        · simp at h
          subst h
          omega
      · have hle := hbound kv2 hmem
        split_ifs at h with hb
        · simp at h
          subst h
          omega
        · simp at h
          subst h
          omega

/-- Every entry of the fixed table is found by `sgNumber` (the table
keys are pairwise distinct). -/
theorem sgNumber_of_mem : ∀ kv ∈ lattice_to_sg_number, sgNumber kv.1 = some kv.2 := by
  decide

/-- `sgNumber` values come from table entries. -/
theorem mem_of_sgNumber_eq_some {fam : String} {n : ℕ}
    (h : sgNumber fam = some n) : (fam, n) ∈ lattice_to_sg_number := by
  unfold sgNumber at h
  rcases hf : lattice_to_sg_number.find? (fun kv => kv.1 == fam) with _ | kv
  · rw [hf] at h
    cases h
  · rw [hf] at h
    simp only [Option.map_some'] at h
    have hmem := List.mem_of_find?_eq_some hf
    have hkey := List.find?_some hf
    simp at hkey
    cases kv with
    | mk k v =>
      simp at hkey h
      subst hkey
      subst h
      exact hmem

/-- Membership is preserved by stable insertion. -/
theorem mem_insertByMad {x y : BravaisSolution} {l : List BravaisSolution} :
    y ∈ insertByMad x l ↔ y = x ∨ y ∈ l := by
  induction l with
  | nil => simp [insertByMad]
  | cons z zs ih =>
    rw [insertByMad]
    split_ifs with hb
    · simp [or_assoc]
    · simp only [List.mem_cons, ih]
      tauto

/-- `sortByMad` preserves membership. -/
theorem mem_sortByMad {y : BravaisSolution} {l : List BravaisSolution} :
    y ∈ sortByMad l ↔ y ∈ l := by
  induction l with
  | nil => simp [sortByMad]
  | cons a as ih =>
    rw [sortByMad, mem_insertByMad]
    simp [ih]

/-- The head of the `madLe`-insertion-sorted list is a member of the
original list with minimal max-angular-difference. -/
theorem sortByMad_head_min {l : List BravaisSolution} {x : BravaisSolution}
    (h : (sortByMad l).head? = some x) :
    x ∈ l ∧ ∀ s ∈ l, x.max_angular_difference ≤ s.max_angular_difference := by
  induction l generalizing x with
  | nil => cases h
  | cons a as ih =>
    rw [sortByMad] at h
    rcases hs : sortByMad as with _ | ⟨b, bs⟩
    · rw [hs, insertByMad] at h
      simp at h
      subst h
      have hnil : as = [] := by
        cases as with
        | nil => rfl
        | cons c cs =>
          rw [sortByMad] at hs
          cases hcs : insertByMad c (sortByMad cs) with
          | nil =>
            have : c ∈ insertByMad c (sortByMad cs) := mem_insertByMad.mpr (Or.inl rfl)
            rw [hcs] at this
            cases this
          | cons d ds => rw [hcs] at hs; cases hs
      subst hnil
      exact ⟨List.mem_singleton_self _, by intro s hs2; simp at hs2; simp [hs2]⟩
    · obtain ⟨hbmem, hbmin⟩ := ih (x := b) (by rw [hs]; rfl)
      rw [hs, insertByMad] at h
      split_ifs at h with hb
      · simp at h
        subst h
        refine ⟨List.mem_cons_self _ _, ?_⟩
        intro s hs2
        rcases List.mem_cons.mp hs2 with rfl | hmem
        · exact le_refl _
        · simp only [madLe, decide_eq_true_eq] at hb
          exact le_trans hb (hbmin s hmem)
      · simp at h
        subst h
        refine ⟨List.mem_cons_of_mem _ hbmem, ?_⟩
        intro s hs2
        rcases List.mem_cons.mp hs2 with rfl | hmem
        · simp only [madLe, decide_eq_true_eq, not_le] at hb
          exact le_of_lt hb
        · exact hbmin s hmem

/-- Unfolding of `select_solution` once the recommended list is
nonempty and the highest-symmetry family is determined. -/
theorem select_solution_eq {Lfat : List BravaisSolution} {hsl : String}
    (hlen : ¬ (Lfat.filter (·.recommended)).length = 0)
    (hhsl : highest_sym_lattice
      ((Lfat.filter (·.recommended)).map (·.bravais)) = some hsl) :
    select_solution Lfat =
      if (Lfat.filter (fun s => s.bravais == hsl)).length > 1 then
        (sortByMad (Lfat.filter (fun s => s.bravais == hsl))).head?
      else (Lfat.filter (fun s => s.bravais == hsl)).head? := by
  simp only [select_solution]
  rw [if_neg hlen, hhsl]

/-- C1 counterexample: with candidates `solA` (oP, recommended,
metric 2) and `solB` (oP, not recommended, metric 1), the selected
family is oP but the returned candidate is `solB`, which is **not**
recommended — the tie-break pool is the full candidate list, not the
recommended sub-list, refuting the claim that the returned solution
is the recommended candidate of minimal metric. -/
theorem c1_counterexample :
    (refine_bravais_settings [sampleCrystal]
      (EngineOutcome.ok [sampleCrystal] [solA, solB])).2 = some solB ∧
    solB.recommended = false ∧ solA.recommended = true ∧
    solA.bravais = solB.bravais ∧
    solB.max_angular_difference < solA.max_angular_difference := by
  decide

/-- C1 (amended): for every candidate list with at least one
recommended solution (whose families appear in the fixed table),
`refine_bravais_settings` returns a candidate of the full list —
not necessarily a recommended one — whose family attains the maximum
mapped space-group number among the families of recommended
candidates, and whose max-angular-difference is minimal among **all**
candidates (recommended or not) sharing that family. -/
theorem c1_amended_select_highest (experiments mutated : List Crystal)
    (Lfat : List BravaisSolution)
    (hrec : ∃ s ∈ Lfat, s.recommended = true)
    (htab : ∀ s ∈ Lfat, s.recommended = true → (sgNumber s.bravais).isSome) :
    ∃ sol n,
      (refine_bravais_settings experiments (EngineOutcome.ok mutated Lfat)).2 =
        some sol ∧
      sol ∈ Lfat ∧
      sgNumber sol.bravais = some n ∧
      (∃ s ∈ Lfat, s.recommended = true ∧ s.bravais = sol.bravais) ∧
      (∀ s ∈ Lfat, s.recommended = true →
        ∀ m, sgNumber s.bravais = some m → m ≤ n) ∧
      (∀ s ∈ Lfat, s.bravais = sol.bravais →
        sol.max_angular_difference ≤ s.max_angular_difference) := by
  obtain ⟨s0, hs0, hs0rec⟩ := hrec
  have hs0R : s0 ∈ Lfat.filter (·.recommended) :=
    List.mem_filter.mpr ⟨hs0, by simp [hs0rec]⟩
  have hlen : ¬ (Lfat.filter (·.recommended)).length = 0 := by
    rw [List.length_eq_zero]
    exact List.ne_nil_of_mem hs0R
  obtain ⟨n0, hn0⟩ := Option.isSome_iff_exists.mp (htab s0 hs0 hs0rec)
  have hentry0 : (s0.bravais, n0) ∈ lattice_to_sg_number :=
    mem_of_sgNumber_eq_some hn0
  have hposs0 : s0.bravais ∈ (Lfat.filter (·.recommended)).map (·.bravais) :=
    List.mem_map_of_mem _ hs0R
  have hfil0 : (s0.bravais, n0) ∈
      filtered_lattices ((Lfat.filter (·.recommended)).map (·.bravais)) :=
    List.mem_filter.mpr ⟨hentry0, List.elem_iff.mpr hposs0⟩
  obtain ⟨kv, hkv⟩ := argmaxBySnd_ne_none (List.ne_nil_of_mem hfil0)
  have hhsl : highest_sym_lattice
      ((Lfat.filter (·.recommended)).map (·.bravais)) = some kv.1 := by
    unfold highest_sym_lattice
    rw [hkv]
    rfl
  have hkvfil := argmaxBySnd_mem hkv
  have hkvtab : kv ∈ lattice_to_sg_number := List.mem_of_mem_filter hkvfil
  have hkvposs : kv.1 ∈ (Lfat.filter (·.recommended)).map (·.bravais) :=
    List.elem_iff.mp (List.mem_filter.mp hkvfil).2
  have hsgkv : sgNumber kv.1 = some kv.2 := sgNumber_of_mem kv hkvtab
  obtain ⟨s1, hs1R, hs1b⟩ := List.mem_map.mp hkvposs
  have hs1mem : s1 ∈ Lfat := List.mem_of_mem_filter hs1R
  have hs1rec : s1.recommended = true := by
    have := (List.mem_filter.mp hs1R).2
    simpa using this
  have hs1H : s1 ∈ Lfat.filter (fun s => s.bravais == kv.1) :=
    List.mem_filter.mpr ⟨hs1mem, by simp [hs1b]⟩
  have hmax : ∀ s ∈ Lfat, s.recommended = true →
      ∀ m, sgNumber s.bravais = some m → m ≤ kv.2 := by
    intro s hsm hsr m hm
    have hsR : s ∈ Lfat.filter (·.recommended) :=
      List.mem_filter.mpr ⟨hsm, by simp [hsr]⟩
    have hsposs : s.bravais ∈ (Lfat.filter (·.recommended)).map (·.bravais) :=
      List.mem_map_of_mem _ hsR
    have hsfil : (s.bravais, m) ∈
        filtered_lattices ((Lfat.filter (·.recommended)).map (·.bravais)) :=
      List.mem_filter.mpr ⟨mem_of_sgNumber_eq_some hm, List.elem_iff.mpr hsposs⟩
    exact argmaxBySnd_le hkv _ hsfil
  have hsel := select_solution_eq hlen hhsl
  have hresult : (refine_bravais_settings experiments
      (EngineOutcome.ok mutated Lfat)).2 = select_solution Lfat := rfl
  by_cases hgt : (Lfat.filter (fun s => s.bravais == kv.1)).length > 1
  · rw [if_pos hgt] at hsel
    rcases hh : (sortByMad (Lfat.filter (fun s => s.bravais == kv.1))).head?
      with _ | sol
    · exfalso
      have : sortByMad (Lfat.filter (fun s => s.bravais == kv.1)) = [] :=
        List.head?_eq_none_iff.mp hh
      have hs1sorted : s1 ∈ sortByMad (Lfat.filter (fun s => s.bravais == kv.1)) :=
        mem_sortByMad.mpr hs1H
      rw [this] at hs1sorted
      cases hs1sorted
    · obtain ⟨hsolH, hsolmin⟩ := sortByMad_head_min hh
      have hsolmem : sol ∈ Lfat := List.mem_of_mem_filter hsolH
      have hsolb : sol.bravais = kv.1 := by
        have := (List.mem_filter.mp hsolH).2
        simpa using this
      refine ⟨sol, kv.2, ?_, hsolmem, ?_, ⟨s1, hs1mem, hs1rec, by rw [hs1b, hsolb]⟩,
        hmax, ?_⟩
      · rw [hresult, hsel, hh]
      · rw [hsolb]
        exact hsgkv
      · intro s hsm hsb
        exact hsolmin s (List.mem_filter.mpr ⟨hsm, by simp [hsb, hsolb]⟩)
  · rw [if_neg hgt] at hsel
    have hlenH : (Lfat.filter (fun s => s.bravais == kv.1)).length = 1 := by
      have hpos : 0 < (Lfat.filter (fun s => s.bravais == kv.1)).length :=
        List.length_pos.mpr (List.ne_nil_of_mem hs1H)
      omega
    obtain ⟨sol, hsolH⟩ := List.length_eq_one.mp hlenH
    have hsolmem : sol ∈ Lfat := by
      have : sol ∈ Lfat.filter (fun s => s.bravais == kv.1) := by
        rw [hsolH]
        exact List.mem_singleton_self _
      exact List.mem_of_mem_filter this
    have hsolb : sol.bravais = kv.1 := by
      have : sol ∈ Lfat.filter (fun s => s.bravais == kv.1) := by
        rw [hsolH]
        exact List.mem_singleton_self _
      have := (List.mem_filter.mp this).2
      simpa using this
    refine ⟨sol, kv.2, ?_, hsolmem, ?_, ⟨s1, hs1mem, hs1rec, by
      rw [hs1b, hsolb]⟩, hmax, ?_⟩
    · rw [hresult, hsel, hsolH]
      rfl
    · rw [hsolb]
      exact hsgkv
    · intro s hsm hsb
      have : s ∈ Lfat.filter (fun s2 => s2.bravais == kv.1) :=
        List.mem_filter.mpr ⟨hsm, by simp [hsb, hsolb]⟩
      rw [hsolH] at this
      simp at this
      simp [this]

/-- C1 witness: the spec scenario — recommended families mP and oP
present — satisfies the hypotheses, and the selected solution's
family maximises the mapped space-group number (oP, 16 over mP, 3). -/
theorem c1_amended_select_highest_witness :
    ∃ sol n,
      (refine_bravais_settings [sampleCrystal]
        (EngineOutcome.ok [sampleCrystal] [solC, solA])).2 = some sol ∧
      sol ∈ [solC, solA] ∧
      sgNumber sol.bravais = some n ∧
      (∃ s ∈ [solC, solA], s.recommended = true ∧ s.bravais = sol.bravais) ∧
      (∀ s ∈ [solC, solA], s.recommended = true →
        ∀ m, sgNumber s.bravais = some m → m ≤ n) ∧
      (∀ s ∈ [solC, solA], s.bravais = sol.bravais →
        sol.max_angular_difference ≤ s.max_angular_difference) :=
  c1_amended_select_highest [sampleCrystal] [sampleCrystal] [solC, solA]
    ⟨solC, List.mem_cons_self _ _, rfl⟩ (by decide)

/-- C3: if the candidate-generation engine raises, every experiment
crystal is reset to the deep copy of the first experiment's pre-call
crystal, and no solution is returned. -/
theorem c3_engine_failure_reset (c0 : Crystal) (rest mutated : List Crystal) :
    (refine_bravais_settings (c0 :: rest) (EngineOutcome.raise mutated)).1 =
      List.replicate mutated.length c0 ∧
    (refine_bravais_settings (c0 :: rest) (EngineOutcome.raise mutated)).2 = none := by
  unfold refine_bravais_settings
  simp [List.map_const']

/-- `setSelectedVals` preserves length. -/
theorem setSelectedVals_length {α : Type} :
    ∀ (l : List α) (m : List Bool) (vs : List α),
      (setSelectedVals l m vs).length = l.length := by
  intro l
  induction l with
  | nil =>
    intro m vs
    rfl
  | cons x xs ih =>
    intro m vs
    rcases m with _ | ⟨b, ms⟩
    · rw [show setSelectedVals (x :: xs) [] vs = x :: setSelectedVals xs [] vs from rfl]
      simp [ih]
    · cases b
      · simp [setSelectedVals, ih]
      · rcases vs with _ | ⟨v, vs2⟩
        · simp [setSelectedVals, ih]
        · simp [setSelectedVals, ih]

/-- Entrywise description of `setSelectedVals` when the values are the
image of the mask-selected entries: a mask-true position receives its
own transformed entry. -/
theorem setSelectedVals_select_map {α : Type} (f : α → α) (x0 : α) :
    ∀ (l : List α) (m : List Bool), m.length = l.length →
      ∀ i, i < l.length →
        (setSelectedVals l m ((flexSelect m l).map f)).getD i x0 =
          if m.getD i false then f (l.getD i x0) else l.getD i x0 := by
  intro l
  induction l with
  | nil =>
    intro m hm i hi
    simp at hi
  | cons x xs ih =>
    intro m hm i hi
    rcases m with _ | ⟨b, ms⟩
    · simp at hm
    · have hms : ms.length = xs.length := by simpa using hm
      cases b
      · rw [show flexSelect (false :: ms) (x :: xs) = flexSelect ms xs from rfl]
        rw [show setSelectedVals (x :: xs) (false :: ms) ((flexSelect ms xs).map f)
          = x :: setSelectedVals xs ms ((flexSelect ms xs).map f) from rfl]
        rcases i with _ | j
        · simp
        · simp only [List.getD_cons_succ]
          exact ih ms hms j (by simpa using hi)
      · rw [show flexSelect (true :: ms) (x :: xs) = x :: flexSelect ms xs from rfl]
        rw [show (x :: flexSelect ms xs).map f = f x :: (flexSelect ms xs).map f from rfl]
        rw [show setSelectedVals (x :: xs) (true :: ms) (f x :: (flexSelect ms xs).map f)
          = f x :: setSelectedVals xs ms ((flexSelect ms xs).map f) from rfl]
        rcases i with _ | j
        · simp
        · simp only [List.getD_cons_succ]
          exact ih ms hms j (by simpa using hi)

/-- Entrywise description of `setSelectedConst`: mask-true positions
receive the broadcast value, the rest keep their entry. -/
theorem setSelectedConst_getD {α : Type} (v x0 : α) :
    ∀ (l : List α) (m : List Bool) (i : ℕ), i < l.length →
      (setSelectedConst l m v).getD i x0 =
        if m.getD i false then v else l.getD i x0 := by
  intro l
  induction l with
  | nil =>
    intro m i hi
    simp at hi
  | cons x xs ih =>
    intro m i hi
    rcases m with _ | ⟨b, ms⟩
    · simp [setSelectedConst]
    · cases b
      · rcases i with _ | j
        · simp [setSelectedConst]
        · simp only [setSelectedConst, List.getD_cons_succ]
          exact ih ms j (by simpa using hi)
      · rcases i with _ | j
        · simp [setSelectedConst]
        · simp only [setSelectedConst, List.getD_cons_succ]
          exact ih ms j (by simpa using hi)

/-- The selection column as a positionwise map over the index range. -/
theorem reindexSel_eq (op : ChangeOfBasisOp) (miller : List MillerIndex) :
    reindexSel op miller =
      (List.range miller.length).map
        (fun i => !((nonIntegralPositions op miller).contains i)) := by
  unfold reindexSel setSelectedPositions
  apply List.ext_getElem
  · simp
  · intro i h1 h2
    simp only [List.getElem_mapIdx, List.getElem_replicate, List.getElem_map,
      List.getElem_range]
    by_cases hc : (nonIntegralPositions op miller).contains i
    · simp [hc]
    · simp [hc]

/-- The selection column has one entry per reflection. -/
theorem reindexSel_length (op : ChangeOfBasisOp) (miller : List MillerIndex) :
    (reindexSel op miller).length = miller.length := by
  rw [reindexSel_eq]
  simp

/-- Position membership in the non-integral position list. -/
theorem contains_nonIntegralPositions {op : ChangeOfBasisOp}
    {miller : List MillerIndex} {i : ℕ} (hi : i < miller.length) :
    (nonIntegralPositions op miller).contains i =
      !isIntegralQ (op.applyQ (miller.getD i (0, 0, 0))) := by
  apply Bool.eq_iff_iff.mpr
  rw [show (nonIntegralPositions op miller).contains i =
    List.elem i (nonIntegralPositions op miller) from rfl]
  rw [List.elem_iff]
  unfold nonIntegralPositions
  rw [List.mem_filter]
  simp [List.mem_range, hi]

/-- The selection entry at a reflection position records integrality
of its transform. -/
theorem reindexSel_getD (op : ChangeOfBasisOp) (miller : List MillerIndex)
    {i : ℕ} (hi : i < miller.length) :
    (reindexSel op miller).getD i false =
      isIntegralQ (op.applyQ (miller.getD i (0, 0, 0))) := by
  rw [reindexSel_eq]
  rw [List.getD_eq_getElem _ _ (by simpa using hi)]
  simp only [List.getElem_map, List.getElem_range]
  rw [contains_nonIntegralPositions hi]
  simp

/-- Entrywise description of the negated mask. -/
theorem notMask_getD {m : List Bool} {i : ℕ} (hi : i < m.length) :
    (notMask m).getD i false = !(m.getD i false) := by
  unfold notMask
  rw [List.getD_eq_getElem _ _ (by simpa using hi), List.getD_eq_getElem _ _ hi]
  simp

/-- The number of mask-selected entries is the number of trues. -/
theorem flexSelect_length {α : Type} :
    ∀ (m : List Bool) (l : List α), m.length = l.length →
      (flexSelect m l).length = m.countP id := by
  intro m
  induction m with
  | nil =>
    intro l h
    rcases l with _ | ⟨x, xs⟩
    · rfl
    · simp at h
  | cons b ms ih =>
    intro l h
    rcases l with _ | ⟨x, xs⟩
    · simp at h
    · cases b
      · rw [show flexSelect (false :: ms) (x :: xs) = flexSelect ms xs from rfl]
        rw [ih xs (by simpa using h)]
        simp [List.countP_cons]
      · rw [show flexSelect (true :: ms) (x :: xs) = x :: flexSelect ms xs from rfl]
        simp only [List.length_cons]
        rw [ih xs (by simpa using h)]
        simp [List.countP_cons]

/-- The dropped and retained counts sum to the original count. -/
theorem reindex_counts (op : ChangeOfBasisOp) (miller : List MillerIndex) :
    (nonIntegralPositions op miller).length +
      (flexSelect (reindexSel op miller) miller).length = miller.length := by
  rw [flexSelect_length _ _ (by rw [reindexSel_length])]
  rw [reindexSel_eq, List.countP_map]
  have h1 : (nonIntegralPositions op miller).length =
      List.countP (fun i => !isIntegralQ (op.applyQ (miller.getD i (0, 0, 0))))
        (List.range miller.length) := by
    unfold nonIntegralPositions
    rw [List.countP_eq_length_filter]
  rw [h1]
  have h2 : List.countP
      (id ∘ fun i => !((nonIntegralPositions op miller).contains i))
      (List.range miller.length) =
      List.countP (fun i => isIntegralQ (op.applyQ (miller.getD i (0, 0, 0))))
        (List.range miller.length) := by
    apply List.countP_congr
    intro i hi
    simp only [Function.comp_apply, id_eq]
    rw [contains_nonIntegralPositions (List.mem_range.mp hi)]
    simp
  rw [h2]
  have h3 := List.length_eq_countP_add_countP
    (fun i => isIntegralQ (op.applyQ (miller.getD i (0, 0, 0))))
    (List.range miller.length)
  simp only [List.length_range] at h3
  have h4 : List.countP
      (fun i => decide ¬ (isIntegralQ (op.applyQ (miller.getD i (0, 0, 0))) = true))
      (List.range miller.length) =
      List.countP (fun i => !isIntegralQ (op.applyQ (miller.getD i (0, 0, 0))))
        (List.range miller.length) := by
    apply List.countP_congr
    intro i hi
    simp
  rw [h4] at h3
  omega

/-- C4: after `reindex`, every retained (mask-true) reflection's
transformed Miller index is integral and is stored at its position;
every dropped (mask-false) reflection's index is zeroed; and the
dropped count plus the retained count equals the original count. -/
theorem c4_reindex_integrality (experiments : List Crystal)
    (miller : List MillerIndex) (solution : BravaisSolution) :
    (∀ i, i < miller.length →
      (reindexSel solution.cb_op_inp_best miller).getD i false = true →
        isIntegralQ (solution.cb_op_inp_best.applyQ (miller.getD i (0, 0, 0))) = true ∧
        (reindex experiments miller solution).2.getD i (0, 0, 0) =
          toMillerIndex (solution.cb_op_inp_best.applyQ (miller.getD i (0, 0, 0)))) ∧
    (∀ i, i < miller.length →
      (reindexSel solution.cb_op_inp_best miller).getD i false = false →
        (reindex experiments miller solution).2.getD i (0, 0, 0) =
          ((0 : ℤ), (0 : ℤ), (0 : ℤ))) ∧
    (nonIntegralPositions solution.cb_op_inp_best miller).length +
      (flexSelect (reindexSel solution.cb_op_inp_best miller) miller).length =
      miller.length := by
  have hout : (reindex experiments miller solution).2 =
      setSelectedConst
        (setSelectedVals miller (reindexSel solution.cb_op_inp_best miller)
          ((flexSelect (reindexSel solution.cb_op_inp_best miller) miller).map
            (fun h => toMillerIndex (solution.cb_op_inp_best.applyQ h))))
        (notMask (reindexSel solution.cb_op_inp_best miller))
        ((0 : ℤ), (0 : ℤ), (0 : ℤ)) := rfl
  have hlensel : (reindexSel solution.cb_op_inp_best miller).length = miller.length :=
    reindexSel_length _ _
  have hlenmid : (setSelectedVals miller (reindexSel solution.cb_op_inp_best miller)
      ((flexSelect (reindexSel solution.cb_op_inp_best miller) miller).map
        (fun h => toMillerIndex (solution.cb_op_inp_best.applyQ h)))).length =
      miller.length := setSelectedVals_length _ _ _
  refine ⟨?_, ?_, reindex_counts _ _⟩
  · intro i hi hsel
    have hint : isIntegralQ (solution.cb_op_inp_best.applyQ (miller.getD i (0, 0, 0))) = true := by
      rw [reindexSel_getD _ _ hi] at hsel
      exact hsel
    refine ⟨hint, ?_⟩
    rw [hout]
    rw [setSelectedConst_getD _ _ _ _ i (by rw [hlenmid]; exact hi)]
    rw [notMask_getD (by rw [hlensel]; exact hi)]
    rw [hsel]
    simp only [Bool.not_true, if_false]
    rw [setSelectedVals_select_map _ _ _ _ hlensel i hi]
    rw [hsel]
    simp
  · intro i hi hsel
    rw [hout]
    rw [setSelectedConst_getD _ _ _ _ i (by rw [hlenmid]; exact hi)]
    rw [notMask_getD (by rw [hlensel]; exact hi)]
    rw [hsel]
    simp

/-- C4 witness: with the half-index transform and reflections
(1, 2, 3) and (2, 4, 6), position 1 is retained with the integral
transformed index (2, 4, 3), and position 0 (whose transform
(1, 2, 3/2) is non-integral) is zeroed. -/
theorem c4_reindex_integrality_witness :
    (isIntegralQ (ChangeOfBasisOp.applyQ halfOp
        (([((1 : ℤ), (2 : ℤ), (3 : ℤ)), ((2 : ℤ), (4 : ℤ), (6 : ℤ))] :
          List MillerIndex).getD 1 (0, 0, 0))) = true ∧
      (reindex [sampleCrystal] [((1 : ℤ), (2 : ℤ), (3 : ℤ)), ((2 : ℤ), (4 : ℤ), (6 : ℤ))]
        { bravais := "oP", recommended := true, max_angular_difference := 2,
          cb_op_inp_best := halfOp,
          refined_crystal := ⟨"P222", sampleCell⟩ }).2.getD 1 (0, 0, 0) =
        toMillerIndex (ChangeOfBasisOp.applyQ halfOp
          (([((1 : ℤ), (2 : ℤ), (3 : ℤ)), ((2 : ℤ), (4 : ℤ), (6 : ℤ))] :
            List MillerIndex).getD 1 (0, 0, 0)))) ∧
    (reindex [sampleCrystal] [((1 : ℤ), (2 : ℤ), (3 : ℤ)), ((2 : ℤ), (4 : ℤ), (6 : ℤ))]
      { bravais := "oP", recommended := true, max_angular_difference := 2,
        cb_op_inp_best := halfOp,
        refined_crystal := ⟨"P222", sampleCell⟩ }).2.getD 0 (0, 0, 0) =
      ((0 : ℤ), (0 : ℤ), (0 : ℤ)) :=
  ⟨(c4_reindex_integrality [sampleCrystal]
      [((1 : ℤ), (2 : ℤ), (3 : ℤ)), ((2 : ℤ), (4 : ℤ), (6 : ℤ))]
      { bravais := "oP", recommended := true, max_angular_difference := 2,
        cb_op_inp_best := halfOp, refined_crystal := ⟨"P222", sampleCell⟩ }).1
    1 (by norm_num)
    (by rw [reindexSel_getD _ _ (by norm_num)]
        norm_num [ChangeOfBasisOp.applyQ, isIntegralQ, halfOp]),
   (c4_reindex_integrality [sampleCrystal]
      [((1 : ℤ), (2 : ℤ), (3 : ℤ)), ((2 : ℤ), (4 : ℤ), (6 : ℤ))]
      { bravais := "oP", recommended := true, max_angular_difference := 2,
        cb_op_inp_best := halfOp, refined_crystal := ⟨"P222", sampleCell⟩ }).2.1
    0 (by norm_num)
    (by rw [reindexSel_getD _ _ (by norm_num)]
        norm_num [ChangeOfBasisOp.applyQ, isIntegralQ, halfOp])⟩

/-- The failure branch classifies `"failed filter"` as the FILTER
stage. -/
theorem stepId_failed_filter : stepId "failed filter" = "FILTER" := by decide

/-- C2: the pipeline short-circuits — a spot-finding exception yields
exactly the status `failed spotfinding` with no later stage invoked;
an indexing exception yields `failed indexing` with no later stage
invoked; a refinement exception yields `failed integration` and
neither integration nor filtering runs.  A recorded failure is never
overwritten by a later stage. -/
theorem c2_short_circuit (cfg : RunCfg) (eng : Engines) (final0 : FinalRec) :
    (∀ msg, eng.find_spots = Except.error msg →
      (run cfg eng final0).fail = some "failed spotfinding" ∧
      (run cfg eng final0).invoked = ["find_spots"]) ∧
    (∀ n msg, eng.find_spots = Except.ok n → eng.index = Except.error msg →
      (run cfg eng final0).fail = some "failed indexing" ∧
      (run cfg eng final0).invoked = ["find_spots", "index"]) ∧
    (∀ n m msg, eng.find_spots = Except.ok n → eng.index = Except.ok m →
      eng.refine = Except.error msg →
      (run cfg eng final0).fail = some "failed integration" ∧
      "integrate" ∉ (run cfg eng final0).invoked ∧
      "filter" ∉ (run cfg eng final0).invoked) ∧
    (∀ n m u msg, eng.find_spots = Except.ok n → eng.index = Except.ok m →
      eng.refine = Except.ok u → eng.integrate = Except.error msg →
      (run cfg eng final0).fail = some "failed integration" ∧
      "filter" ∉ (run cfg eng final0).invoked) := by
  refine ⟨?_, ?_, ?_, ?_⟩
  · intro msg h
    constructor <;> simp [run, h]
  · intro n msg h1 h2
    constructor <;> simp [run, h1, h2]
  · intro n m msg h1 h2 h3
    by_cases hc : cfg.known_space_group = none ∧ cfg.determine_sg_and_reindex = true
    · rcases hsym : eng.symmetry with smsg | s
      · refine ⟨?_, ?_, ?_⟩ <;> simp [run, h1, h2, h3, hc, hsym]
      · refine ⟨?_, ?_, ?_⟩ <;> simp [run, h1, h2, h3, hc, hsym]
    · refine ⟨?_, ?_, ?_⟩ <;> simp [run, h1, h2, h3, hc]
  · intro n m u msg h1 h2 h3 h4
    by_cases hc : cfg.known_space_group = none ∧ cfg.determine_sg_and_reindex = true
    · rcases hsym : eng.symmetry with smsg | s2
      · refine ⟨?_, ?_⟩ <;> simp [run, h1, h2, h3, h4, hc, hsym]
      · refine ⟨?_, ?_⟩ <;> simp [run, h1, h2, h3, h4, hc, hsym]
    · refine ⟨?_, ?_⟩ <;> simp [run, h1, h2, h3, h4, hc]

/-- C2 witness: a run whose spot finder raises returns exactly
`failed spotfinding` and invokes no other stage. -/
theorem c2_short_circuit_witness :
    (run sampleCfg { engAllOk with find_spots := Except.error "boom" }
      FinalRec.empty).fail = some "failed spotfinding" ∧
    (run sampleCfg { engAllOk with find_spots := Except.error "boom" }
      FinalRec.empty).invoked = ["find_spots"] :=
  (c2_short_circuit sampleCfg
    { engAllOk with find_spots := Except.error "boom" } FinalRec.empty).1 "boom" rfl

/-- C9: an exception inside the symmetry-resolution stage is swallowed:
refinement is still invoked, and the final failure status and the
caller's result record coincide with those of the identical run in
which the symmetry stage succeeded. -/
theorem c9_symmetry_nonfatal (cfg : RunCfg) (eng : Engines) (final0 : FinalRec)
    (n m : ℕ) (msg sg : String)
    (hfs : eng.find_spots = Except.ok n) (hidx : eng.index = Except.ok m)
    (hsg : cfg.known_space_group = none)
    (hdet : cfg.determine_sg_and_reindex = true)
    (hsym : eng.symmetry = Except.error msg) :
    "refine" ∈ (run cfg eng final0).invoked ∧
    (run cfg eng final0).fail =
      (run cfg { eng with symmetry := Except.ok sg } final0).fail ∧
    (run cfg eng final0).final =
      (run cfg { eng with symmetry := Except.ok sg } final0).final := by
  rcases href : eng.refine with rmsg | u
  · refine ⟨?_, ?_, ?_⟩ <;> simp [run, hfs, hidx, hsg, hdet, hsym, href]
  · rcases hint : eng.integrate with imsg | f
    · refine ⟨?_, ?_, ?_⟩ <;> simp [run, hfs, hidx, hsg, hdet, hsym, href, hint]
    · by_cases hflt : cfg.filter_flag_on = true
      · rcases hrf : (Selector.from_frame f cfg.target_uc_tolerance
            cfg.target_pointgroup cfg.target_unit_cell cfg.min_reflections
            cfg.min_resolution).result_filter with _ | ff
        · refine ⟨?_, ?_, ?_⟩ <;>
            simp [run, hfs, hidx, hsg, hdet, hsym, href, hint, hflt, hrf]
        · refine ⟨?_, ?_, ?_⟩ <;>
            simp [run, hfs, hidx, hsg, hdet, hsym, href, hint, hflt, hrf]
      · refine ⟨?_, ?_, ?_⟩ <;>
          simp [run, hfs, hidx, hsg, hdet, hsym, href, hint, hflt]

/-- C9 witness: with every other engine succeeding and the symmetry
stage raising, refinement runs and the outcome equals that of the
fully successful run. -/
theorem c9_symmetry_nonfatal_witness :
    "refine" ∈ (run sampleCfg { engAllOk with symmetry := Except.error "lepage" }
      FinalRec.empty).invoked ∧
    (run sampleCfg { engAllOk with symmetry := Except.error "lepage" }
      FinalRec.empty).fail =
      (run sampleCfg { { engAllOk with symmetry := Except.error "lepage" } with
        symmetry := Except.ok "P222" } FinalRec.empty).fail ∧
    (run sampleCfg { engAllOk with symmetry := Except.error "lepage" }
      FinalRec.empty).final =
      (run sampleCfg { { engAllOk with symmetry := Except.error "lepage" } with
        symmetry := Except.ok "P222" } FinalRec.empty).final :=
  c9_symmetry_nonfatal sampleCfg
    { engAllOk with symmetry := Except.error "lepage" } FinalRec.empty
    150 120 "lepage" "P222" rfl rfl rfl rfl rfl

/-- C8 counterexample: on a failing run the accumulator does **not**
gain the status line — the failure branch computes `int_status` and an
`int_results` record but never merges them into the accumulator; only
the `final` output-path field is nulled.  This refutes the claim that
the accumulator gains the status line on failure. -/
theorem c8_counterexample :
    (run sampleCfg { engAllOk with find_spots := Except.error "boom" }
      (init_final FinalRec.empty "final.pickle")).fail = some "failed spotfinding" ∧
    (run sampleCfg { engAllOk with find_spots := Except.error "boom" }
      (init_final FinalRec.empty "final.pickle")).final.info = none ∧
    (run sampleCfg { engAllOk with find_spots := Except.error "boom" }
      (init_final FinalRec.empty "final.pickle")).final =
      { init_final FinalRec.empty "final.pickle" with final := none } := by
  refine ⟨?_, ?_, ?_⟩ <;> simp [run, init_final, FinalRec.empty]

/-- C8 (amended): the caller's accumulator is never left in a partial
state — a failing run changes exactly one field (the output path,
nulled) and a successful run populates every result field, keeps the
output path, and sets `ok := true`. -/
theorem c8_amended_shape (cfg : RunCfg) (eng : Engines) (f0 : FinalRec)
    (path : String) :
    ((run cfg eng (init_final f0 path)).fail ≠ none ∧
      (run cfg eng (init_final f0 path)).final =
        { init_final f0 path with final := none }) ∨
    ((run cfg eng (init_final f0 path)).fail = none ∧
      (run cfg eng (init_final f0 path)).final.final = some path ∧
      (run cfg eng (init_final f0 path)).final.ok = some true ∧
      (run cfg eng (init_final f0 path)).final.sg.isSome = true ∧
      (run cfg eng (init_final f0 path)).final.a.isSome = true ∧
      (run cfg eng (init_final f0 path)).final.b.isSome = true ∧
      (run cfg eng (init_final f0 path)).final.c.isSome = true ∧
      (run cfg eng (init_final f0 path)).final.alpha.isSome = true ∧
      (run cfg eng (init_final f0 path)).final.beta.isSome = true ∧
      (run cfg eng (init_final f0 path)).final.gamma.isSome = true ∧
      (run cfg eng (init_final f0 path)).final.wavelength.isSome = true ∧
      (run cfg eng (init_final f0 path)).final.distance.isSome = true ∧
      (run cfg eng (init_final f0 path)).final.beamX.isSome = true ∧
      (run cfg eng (init_final f0 path)).final.beamY.isSome = true ∧
      (run cfg eng (init_final f0 path)).final.strong.isSome = true ∧
      (run cfg eng (init_final f0 path)).final.res.isSome = true ∧
      (run cfg eng (init_final f0 path)).final.lres.isSome = true ∧
      (run cfg eng (init_final f0 path)).final.mos.isSome = true ∧
      (run cfg eng (init_final f0 path)).final.epv.isSome = true ∧
      (run cfg eng (init_final f0 path)).final.info.isSome = true) := by
  rcases hfs : eng.find_spots with fmsg | n2
  · left
    refine ⟨?_, ?_⟩ <;> simp [run, hfs, init_final]
  · rcases hidx : eng.index with imsg | m2
    · left
      refine ⟨?_, ?_⟩ <;> simp [run, hfs, hidx, init_final]
    · by_cases hc : cfg.known_space_group = none ∧
        cfg.determine_sg_and_reindex = true
      · rcases hsym : eng.symmetry with smsg | s
        · rcases href : eng.refine with rmsg | u
          · left
            refine ⟨?_, ?_⟩ <;> simp [run, hfs, hidx, hc, hsym, href, init_final]
          · rcases hint : eng.integrate with imsg2 | f
            · left
              refine ⟨?_, ?_⟩ <;> simp [run, hfs, hidx, hc, hsym, href, hint, init_final]
            · by_cases hflt : cfg.filter_flag_on = true
              · rcases hrf : (Selector.from_frame f cfg.target_uc_tolerance
                    cfg.target_pointgroup cfg.target_unit_cell cfg.min_reflections
                    cfg.min_resolution).result_filter with _ | ff
                · right
                  simp [run, hfs, hidx, hc, hsym, href, hint, hflt, hrf, init_final]
                · left
                  refine ⟨?_, ?_⟩ <;> simp [run, hfs, hidx, hc, hsym, href, hint, hflt, hrf, init_final]
              · right
                simp [run, hfs, hidx, hc, hsym, href, hint, hflt, init_final]
        · rcases href : eng.refine with rmsg | u
          · left
            refine ⟨?_, ?_⟩ <;> simp [run, hfs, hidx, hc, hsym, href, init_final]
          · rcases hint : eng.integrate with imsg2 | f
            · left
              refine ⟨?_, ?_⟩ <;> simp [run, hfs, hidx, hc, hsym, href, hint, init_final]
            · by_cases hflt : cfg.filter_flag_on = true
              · rcases hrf : (Selector.from_frame f cfg.target_uc_tolerance
                    cfg.target_pointgroup cfg.target_unit_cell cfg.min_reflections
                    cfg.min_resolution).result_filter with _ | ff
                · right
                  simp [run, hfs, hidx, hc, hsym, href, hint, hflt, hrf, init_final]
                · left
                  refine ⟨?_, ?_⟩ <;> simp [run, hfs, hidx, hc, hsym, href, hint, hflt, hrf, init_final]
              · right
                simp [run, hfs, hidx, hc, hsym, href, hint, hflt, init_final]
      · rcases href : eng.refine with rmsg | u
        · left
          refine ⟨?_, ?_⟩ <;> simp [run, hfs, hidx, hc, href, init_final]
        · rcases hint : eng.integrate with imsg2 | f
          · left
            refine ⟨?_, ?_⟩ <;> simp [run, hfs, hidx, hc, href, hint, init_final]
          · by_cases hflt : cfg.filter_flag_on = true
            · rcases hrf : (Selector.from_frame f cfg.target_uc_tolerance
                  cfg.target_pointgroup cfg.target_unit_cell cfg.min_reflections
                  cfg.min_resolution).result_filter with _ | ff
              · right
                simp [run, hfs, hidx, hc, href, hint, hflt, hrf, init_final]
              · left
                refine ⟨?_, ?_⟩ <;> simp [run, hfs, hidx, hc, href, hint, hflt, hrf, init_final]
            · right
              simp [run, hfs, hidx, hc, href, hint, hflt, init_final]

/-- C10: when only the filter stage fails, the failure log line and
the discarded `int_status` line interpolate the exception variable
`e`, which is `None` when no stage raised (the symmetry stage having
been skipped or having succeeded), and is the swallowed symmetry
exception when one was raised there — never a filter-specific
message. -/
theorem c10_filter_failure_message (cfg : RunCfg) (eng : Engines)
    (final0 : FinalRec) (n m : ℕ) (u : Unit) (f : Frame)
    (hfs : eng.find_spots = Except.ok n) (hidx : eng.index = Except.ok m)
    (href : eng.refine = Except.ok u) (hint : eng.integrate = Except.ok f)
    (hflt : cfg.filter_flag_on = true)
    (hrej : (Selector.from_frame f cfg.target_uc_tolerance
      cfg.target_pointgroup cfg.target_unit_cell cfg.min_reflections
      cfg.min_resolution).result_filter = some "failed filter") :
    (¬ (cfg.known_space_group = none ∧ cfg.determine_sg_and_reindex = true) →
      (run cfg eng final0).fail = some "failed filter" ∧
      (run cfg eng final0).log_entry =
        String.intercalate "\n" ["\n", "\n FILTER FAILED - " ++ pyStr none]) ∧
    (∀ s, cfg.known_space_group = none → cfg.determine_sg_and_reindex = true →
      eng.symmetry = Except.ok s →
      (run cfg eng final0).fail = some "failed filter" ∧
      (run cfg eng final0).log_entry =
        String.intercalate "\n" ["\n", "\n FILTER FAILED - " ++ pyStr none]) ∧
    (∀ msg, cfg.known_space_group = none → cfg.determine_sg_and_reindex = true →
      eng.symmetry = Except.error msg →
      (run cfg eng final0).fail = some "failed filter" ∧
      (run cfg eng final0).log_entry =
        String.intercalate "\n" ["\n", "\n FILTER FAILED - " ++ pyStr (some msg)]) ∧
    failure_int_status none = "not integrated -- None" := by
  refine ⟨?_, ?_, ?_, rfl⟩
  · intro hc
    constructor <;>
      simp [run, hfs, hidx, href, hint, hflt, hrej, hc, stepId_failed_filter, pyStr]
  · intro s hk hd hsym
    have hc : cfg.known_space_group = none ∧ cfg.determine_sg_and_reindex = true :=
      ⟨hk, hd⟩
    constructor <;>
      simp [run, hfs, hidx, href, hint, hflt, hrej, hc, hsym, stepId_failed_filter,
        pyStr]
  · intro msg hk hd hsym
    have hc : cfg.known_space_group = none ∧ cfg.determine_sg_and_reindex = true :=
      ⟨hk, hd⟩
    constructor <;>
      simp [run, hfs, hidx, href, hint, hflt, hrej, hc, hsym, stepId_failed_filter,
        pyStr]

/-- C10 witness: a run under `filterCfg` (minimum 1000 reflections)
with all engines succeeding and a 40-reflection frame fails only at
the filter, and its log line interpolates `None`. -/
theorem c10_filter_failure_message_witness :
    (run filterCfg engAllOk FinalRec.empty).fail = some "failed filter" ∧
    (run filterCfg engAllOk FinalRec.empty).log_entry =
      String.intercalate "\n" ["\n", "\n FILTER FAILED - " ++ pyStr none] :=
  (c10_filter_failure_message filterCfg engAllOk FinalRec.empty 150 120 ()
    (sampleFrame 40) rfl rfl rfl rfl rfl (by decide)).2.1 "P222" rfl rfl rfl
